import Mathlib

/-!
Verification development for the passmanager repository: a shallow embedding
of its vault security and lifecycle core (crypto service, storage layer,
password manager state machine, password generator, export and import
protocol), with theorems settling the frozen specification claims.

Go byte slices are embedded as `List Nat` (byte values), Go strings as the
byte lists of their contents. External library primitives (AES-GCM, Argon2id,
encoding-json, base64) are not part of this repository and are modelled from
their documented semantics where the spec relies on them; every such model is
marked in its doc comment.
-/

namespace PassManager

/-- Byte list of an ASCII string, used to embed Go string literals. -/
def strBytes (s : String) : List Nat := s.data.map Char.toNat

namespace Crypto

/-- Error cases surfaced by the crypto service embedding. -/
inductive CryptoErr where
  | invalidKeySize
  | ciphertextTooShort
  | authFailed
  deriving DecidableEq, Repr

/-- Go aes.NewCipher accepts exactly 16, 24 or 32 byte keys. -/
def aesKeySizeOk (key : List Nat) : Bool :=
  key.length == 16 || key.length == 24 || key.length == 32

/-- gcm.NonceSize is 12 bytes for the standard GCM construction used here. -/
def nonceSize : Nat := 12

/-- Modelled from the spec: the AES-GCM sealed body is the ciphertext plus a
tag that authenticates the sealing key; tag verification failing under every
other key is idealized as the body carrying an exact marker of the sealing
key, so a decryption attempt under any other key fails, which is exactly the
behaviour the authentication protocol of the spec relies on. -/
def gcmSealBody (key plaintext : List Nat) : List Nat :=
  (key.length :: key) ++ plaintext

/-- Modelled from the spec: gcm.Open succeeds exactly when the body was sealed
under the same key, and then returns the original plaintext. -/
def gcmOpen (key body : List Nat) : Option (List Nat) :=
  if body.take (key.length + 1) = key.length :: key then
    some (body.drop (key.length + 1))
  else none

/-- aesCryptoService.Encrypt: build the cipher for the key, draw a fresh
random 12-byte nonce (the random draw is passed in as the nonce argument),
and return gcm.Seal output prefixed with the nonce. -/
def Encrypt (plaintext : List Nat) (key : List Nat) (nonce : List Nat) :
    Except CryptoErr (List Nat) :=
  if aesKeySizeOk key then .ok (nonce ++ gcmSealBody key plaintext)
  else .error .invalidKeySize

/-- aesCryptoService.Decrypt: reject keys of invalid size, then blobs shorter
than the nonce size, then split off the nonce and open the rest. -/
def Decrypt (ciphertext : List Nat) (key : List Nat) :
    Except CryptoErr (List Nat) :=
  if aesKeySizeOk key then
    if ciphertext.length < nonceSize then .error .ciphertextTooShort
    else
      match gcmOpen key (ciphertext.drop nonceSize) with
      | some pt => .ok pt
      | none => .error .authFailed
  else .error .invalidKeySize

/-- Fixed Argon2 parameters from internal-crypto argon.go. -/
def argonTime : Nat := 3

/-- Memory cost in KiB. -/
def argonMemory : Nat := 64 * 1024

/-- Parallelism. -/
def argonThreads : Nat := 4

/-- Output key length for AES-256. -/
def argonKeyLen : Nat := 32

/-- Modelled from the spec: Argon2id is a deterministic function of password
and salt producing keyLen output bytes; its internals live outside this
repository, so it is embedded as a fixed deterministic byte function of its
inputs with the documented output length. -/
def argon2IDKey (password salt : List Nat)
    (time memory : Nat) (threads : Nat) (keyLen : Nat) : List Nat :=
  (List.range keyLen).map fun i =>
    (password.foldl (fun a b => a * 31 + b + 1) 7 +
     salt.foldl (fun a b => a * 131 + b + 1) 11 +
     time + memory + threads + i) % 256

/-- aesCryptoService.DeriveKey: calls argon2.IDKey with the fixed parameters
and returns the key with a nil error; the source has no error path at all. -/
def DeriveKey (password salt : List Nat) : Except CryptoErr (List Nat) :=
  .ok (argon2IDKey password salt argonTime argonMemory argonThreads argonKeyLen)

/-- The key bytes DeriveKey always returns. -/
def deriveKeyBytes (password salt : List Nat) : List Nat :=
  argon2IDKey password salt argonTime argonMemory argonThreads argonKeyLen

/-- aesCryptoService.VerifyKey: true exactly when Decrypt of the test vector
under the key reports no error; VerifyKey itself never returns an error. -/
def VerifyKey (key testVector : List Nat) : Bool :=
  (Decrypt testVector key).isOk

end Crypto

namespace Generator

/-- pkg-generator PasswordOptions. -/
structure PasswordOptions where
  Length : Int
  IncludeLowercase : Bool
  IncludeUppercase : Bool
  IncludeNumbers : Bool
  IncludeSymbols : Bool
  ExcludeSimilar : Bool
  ExcludeAmbiguous : Bool
  deriving DecidableEq, Repr

/-- Generator character class: lowercase letters. -/
def lowercase : List Nat := strBytes "abcdefghijklmnopqrstuvwxyz"

/-- Generator character class: uppercase letters. -/
def uppercase : List Nat := strBytes "ABCDEFGHIJKLMNOPQRSTUVWXYZ"

/-- Generator character class: digits. -/
def numbers : List Nat := strBytes "0123456789"

/-- Generator character class: symbols (the two brace characters written as
hex escapes). -/
def symbols : List Nat := strBytes "!@#$%^&*()-_=+[]\x7b\x7d|;:,./<>?~"

/-- Similar looking characters excluded by ExcludeSimilar. -/
def similar : List Nat := strBytes "il1Lo0O"

/-- Ambiguous characters excluded by ExcludeAmbiguous; given as byte values
because the Go literal contains quote and backtick characters. -/
def ambiguous : List Nat :=
  [96, 123, 125, 91, 93, 40, 41, 124, 92, 47, 39, 34, 96, 126, 44, 59, 58, 46, 60, 62]

/-- containsRune: membership of a byte in a character class string. -/
def containsRune (s : List Nat) (r : Nat) : Bool := s.contains r

/-- The character set GeneratePassword builds from the options, class by
class, dropping similar or ambiguous characters when asked to. -/
def buildCharset (o : PasswordOptions) : List Nat :=
  (if o.IncludeLowercase then
    lowercase.filter (fun c => !(o.ExcludeSimilar && containsRune similar c)) else []) ++
  (if o.IncludeUppercase then
    uppercase.filter (fun c => !(o.ExcludeSimilar && containsRune similar c)) else []) ++
  (if o.IncludeNumbers then
    numbers.filter (fun c => !(o.ExcludeSimilar && containsRune similar c)) else []) ++
  (if o.IncludeSymbols then
    symbols.filter (fun c => !(o.ExcludeAmbiguous && containsRune ambiguous c)) else [])

/-- One step of the meetsRequirements scan: the four has-class flags updated
by one character through the else-if chain of the source. -/
def reqStep (st : Bool × Bool × Bool × Bool) (c : Nat) : Bool × Bool × Bool × Bool :=
  if containsRune lowercase c then (true, st.2.1, st.2.2.1, st.2.2.2)
  else if containsRune uppercase c then (st.1, true, st.2.2.1, st.2.2.2)
  else if containsRune numbers c then (st.1, st.2.1, true, st.2.2.2)
  else if containsRune symbols c then (st.1, st.2.1, st.2.2.1, true)
  else st

/-- meetsRequirements: each flag starts true when its class is not requested,
then the password characters are scanned; all four must end true. -/
def meetsRequirements (password : List Nat) (o : PasswordOptions) : Bool :=
  let f := password.foldl reqStep
    (!o.IncludeLowercase, !o.IncludeUppercase, !o.IncludeNumbers, !o.IncludeSymbols)
  f.1 && f.2.1 && f.2.2.1 && f.2.2.2

/-- One full random draw of len characters: position i of the result is
chars indexed by randomInt of the charset size, with the secure random source
modelled as a stream of naturals consumed by position. -/
def drawPassword (chars : List Nat) (len : Nat) (stream : Nat → Nat) (pos : Nat) :
    List Nat :=
  (List.range len).map fun i => chars.getD (stream (pos + i) % chars.length) 0

/-- Errors returned by GeneratePassword before any drawing. -/
inductive GenErr where
  | nonPositiveLength
  | emptyCharset
  deriving DecidableEq, Repr

/-- GeneratePassword with an explicit retry budget: none models running out of
fuel, that is, the source recursion not having terminated within fuel rounds;
each round draws a full fresh string and regenerates when meetsRequirements
fails, advancing the random stream by Length positions. -/
def GeneratePasswordFuel (fuel : Nat) (o : PasswordOptions)
    (stream : Nat → Nat) (pos : Nat) : Option (Except GenErr (List Nat)) :=
  match fuel with
  | 0 => none
  | fuel + 1 =>
    if o.Length ≤ 0 then some (.error .nonPositiveLength)
    else if (buildCharset o).length = 0 then some (.error .emptyCharset)
    else if meetsRequirements (drawPassword (buildCharset o) o.Length.toNat stream pos) o then
      some (.ok (drawPassword (buildCharset o) o.Length.toNat stream pos))
    else GeneratePasswordFuel fuel o stream (pos + o.Length.toNat)

/-- Divergence of the generator on a given option set and random stream: no
retry budget suffices from any stream position. -/
def genDivergesOn (o : PasswordOptions) (stream : Nat → Nat) : Prop :=
  ∀ fuel pos, GeneratePasswordFuel fuel o stream pos = none

end Generator

namespace Models

/-- internal-models PasswordEntry. The two time.Time fields are embedded as
the raw textual timestamps scanned from the store; the lossy RFC3339
time.Parse of the source (whose failures are silently discarded) is elided,
as no claim inspects parsed timestamp values. -/
structure PasswordEntry where
  ID : Int
  Title : List Nat
  URL : List Nat
  Username : List Nat
  Password : List Nat
  Notes : List Nat
  Category : List Nat
  CreatedAt : List Nat
  LastUpdated : List Nat
  deriving DecidableEq, Repr

/-- internal-models SearchParams. -/
structure SearchParams where
  Keyword : List Nat
  Category : List Nat
  SortBy : List Nat
  SortDesc : Bool
  Limit : Int
  Offset : Int
  deriving DecidableEq, Repr

end Models

namespace Storage

/-- A dynamically typed sqlite value as stored in the two encrypted columns:
sqlite keeps whatever type the bound Go value had (BLOB for byte slices, TEXT
for strings, NULL for nil), which matters to the import path. -/
inductive SqlValue where
  | null
  | blob (bs : List Nat)
  | text (bs : List Nat)
  | int (n : Int)
  deriving DecidableEq, Repr

/-- One row of the passwords table. The clear columns are embedded as text
bytes, the two encrypted columns keep the dynamic sqlite typing. -/
structure StoredRow where
  id : Int
  title : List Nat
  url : List Nat
  username : List Nat
  password : SqlValue
  notes : SqlValue
  category : List Nat
  createdAt : List Nat
  updatedAt : List Nat
  deriving DecidableEq, Repr

/-- The persistent state behind SQLiteStorage: the two config entries, the
passwords table and its AUTOINCREMENT counter. -/
structure DBState where
  salt : Option (List Nat)
  testVector : Option (List Nat)
  rows : List StoredRow
  nextId : Int
  deriving DecidableEq, Repr

/-- Storage layer errors. -/
inductive StorageErr where
  | noSaltFound
  | noRows
  | execFailed
  | badSortColumn
  deriving DecidableEq, Repr

/-- SQLiteStorage.GetSalt: the stored salt, or the no-salt-found error when
the config row is absent. -/
def GetSalt (db : DBState) : Except StorageErr (List Nat) :=
  match db.salt with
  | some s => .ok s
  | none => .error .noSaltFound

/-- SQLiteStorage.SaveSalt: INSERT OR REPLACE of the salt config entry. -/
def SaveSalt (db : DBState) (salt : List Nat) : DBState :=
  ⟨some salt, db.testVector, db.rows, db.nextId⟩

/-- SQLiteStorage.GetTestVector: the stored vector; an absent config row is
explicitly NOT an error in the source and comes back as a nil slice. -/
def GetTestVector (db : DBState) : Except StorageErr (Option (List Nat)) :=
  .ok db.testVector

/-- SQLiteStorage.SaveTestVector: INSERT OR REPLACE of the test vector. -/
def SaveTestVector (db : DBState) (vector : List Nat) : DBState :=
  ⟨db.salt, some vector, db.rows, db.nextId⟩

/-- Scanning a dynamically typed column into a Go byte slice: NULL gives a
nil slice, BLOB and TEXT give their bytes, INTEGER its decimal text. -/
def scanBytes : SqlValue → Option (List Nat)
  | .null => none
  | .blob bs => some bs
  | .text bs => some bs
  | .int n =>
    some ((if n < 0 then [45] else []) ++ (Nat.toDigits 10 n.natAbs).map Char.toNat)

/-- SQLiteStorage.AddPassword: INSERT of the clear fields plus the encrypted
blobs (a nil encNotes slice binds as NULL), CURRENT_TIMESTAMP passed in as the
textual clock value, returning LastInsertId. -/
def AddPassword (db : DBState) (entry : Models.PasswordEntry)
    (encPassword : List Nat) (encNotes : Option (List Nat)) (now : List Nat) :
    Int × DBState :=
  let row : StoredRow :=
    ⟨db.nextId, entry.Title, entry.URL, entry.Username,
     .blob encPassword,
     (match encNotes with | some bs => .blob bs | none => .null),
     entry.Category, now, now⟩
  (db.nextId, ⟨db.salt, db.testVector, db.rows ++ [row], db.nextId + 1⟩)

/-- The row a SELECT by id finds. -/
def findRow (db : DBState) (id : Int) : Option StoredRow :=
  db.rows.find? (fun r => r.id == id)

/-- SQLiteStorage.GetPassword: SELECT by id, sql.ErrNoRows when absent; the
returned entry carries the clear columns and empty sensitive fields, and the
two encrypted columns come back as scanned byte slices. -/
def GetPassword (db : DBState) (id : Int) :
    Except StorageErr (Models.PasswordEntry × Option (List Nat) × Option (List Nat)) :=
  match findRow db id with
  | none => .error .noRows
  | some r =>
    .ok (⟨r.id, r.title, r.url, r.username, [], [], r.category, r.createdAt, r.updatedAt⟩,
         scanBytes r.password, scanBytes r.notes)

/-- Byte-lexicographic comparison, the BINARY collation sqlite sorts text
with. -/
def bytesLeB : List Nat → List Nat → Bool
  | [], _ => true
  | _ :: _, [] => false
  | a :: as, b :: bs => if a < b then true else if b < a then false else bytesLeB as bs

/-- Sorting rows by a boolean comparison. -/
def sortRowsBy (le : StoredRow → StoredRow → Bool) (rows : List StoredRow) :
    List StoredRow :=
  List.insertionSort (fun a b => le a b = true) rows

/-- The seven-column SELECT used by listing and search: password and notes are
not in the column list, so the scanned entry keeps them as the empty string. -/
def publicEntry (r : StoredRow) : Models.PasswordEntry :=
  ⟨r.id, r.title, r.url, r.username, [], [], r.category, r.createdAt, r.updatedAt⟩

/-- SQLiteStorage.GetAllPasswords: the seven clear columns of every row,
ORDER BY title. -/
def GetAllPasswords (db : DBState) : List Models.PasswordEntry :=
  (sortRowsBy (fun a b => bytesLeB a.title b.title) db.rows).map publicEntry

/-- ASCII lower casing; sqlite LIKE is case-insensitive over ASCII. -/
def lowerByte (b : Nat) : Nat := if 65 ≤ b ∧ b ≤ 90 then b + 32 else b

/-- ASCII lower casing of a byte string. -/
def lowerBytes (bs : List Nat) : List Nat := bs.map lowerByte

/-- Contiguous substring test. -/
def isSubList (needle hay : List Nat) : Bool :=
  match hay with
  | [] => needle.isEmpty
  | _ :: t => if needle.isPrefixOf hay then true else isSubList needle t

/-- The LIKE percent-keyword-percent condition: case-insensitive substring;
wildcard characters inside the keyword itself are not modelled, no claim
depends on them. -/
def likeContains (kw field : List Nat) : Bool :=
  isSubList (lowerBytes kw) (lowerBytes field)

/-- ORDER BY column resolution: the source interpolates params.SortBy into
the SQL text, so a known column name orders by that column and anything else
makes the query fail. -/
def sortColumnLe (col : List Nat) (desc : Bool) :
    Option (StoredRow → StoredRow → Bool) :=
  if col = strBytes "id" then
    some (fun a b => if desc then decide (b.id ≤ a.id) else decide (a.id ≤ b.id))
  else
    let key? : Option (StoredRow → List Nat) :=
      if col = strBytes "title" then some (fun r => r.title)
      else if col = strBytes "url" then some (fun r => r.url)
      else if col = strBytes "username" then some (fun r => r.username)
      else if col = strBytes "category" then some (fun r => r.category)
      else if col = strBytes "created_at" then some (fun r => r.createdAt)
      else if col = strBytes "updated_at" then some (fun r => r.updatedAt)
      else none
    match key? with
    | some k => some (fun a b => if desc then bytesLeB (k b) (k a) else bytesLeB (k a) (k b))
    | none => none

/-- SQLiteStorage.SearchPasswords: keyword filter over title, url and
username, category equality filter, ORDER BY the requested column (title ASC
when none), LIMIT and OFFSET applied only when Limit is positive, and the
seven-column scan into entries. -/
def SearchPasswords (db : DBState) (params : Models.SearchParams) :
    Except StorageErr (List Models.PasswordEntry) :=
  let filtered := db.rows.filter fun r =>
    (params.Keyword == [] ||
      (likeContains params.Keyword r.title || likeContains params.Keyword r.url ||
       likeContains params.Keyword r.username)) &&
    (params.Category == [] || r.category == params.Category)
  let sorted? : Option (List StoredRow) :=
    if params.SortBy = [] then
      some (sortRowsBy (fun a b => bytesLeB a.title b.title) filtered)
    else
      match sortColumnLe params.SortBy params.SortDesc with
      | some le => some (sortRowsBy le filtered)
      | none => none
  match sorted? with
  | none => .error .badSortColumn
  | some sorted =>
    let paged :=
      if params.Limit > 0 then
        (if params.Offset > 0 then sorted.drop params.Offset.toNat else sorted).take
          params.Limit.toNat
      else sorted
    .ok (paged.map publicEntry)

/-- SQLiteStorage.UpdatePassword: UPDATE by entry id; rows with other ids are
untouched and a missing id updates nothing without error. -/
def UpdatePassword (db : DBState) (entry : Models.PasswordEntry)
    (encPassword : List Nat) (encNotes : Option (List Nat)) (now : List Nat) :
    DBState :=
  ⟨db.salt, db.testVector,
   db.rows.map fun r =>
     if r.id == entry.ID then
       ⟨r.id, entry.Title, entry.URL, entry.Username,
        .blob encPassword,
        (match encNotes with | some bs => .blob bs | none => .null),
        entry.Category, r.createdAt, now⟩
     else r,
   db.nextId⟩

/-- SQLiteStorage.DeletePassword: DELETE by id. -/
def DeletePassword (db : DBState) (id : Int) : DBState :=
  ⟨db.salt, db.testVector, db.rows.filter (fun r => !(r.id == id)), db.nextId⟩

/-- One element of the loosely typed export list: the nine keys ExportData
builds per row, with the two encrypted columns scanned into possibly nil byte
slices. -/
structure ExportRow where
  id : Int
  title : List Nat
  url : List Nat
  username : List Nat
  password : Option (List Nat)
  notes : Option (List Nat)
  category : List Nat
  createdAt : List Nat
  updatedAt : List Nat
  deriving DecidableEq, Repr

/-- SQLiteStorage.ExportData: the full nine-column scan of every row. -/
def ExportData (db : DBState) : List ExportRow :=
  db.rows.map fun r =>
    ⟨r.id, r.title, r.url, r.username, scanBytes r.password, scanBytes r.notes,
     r.category, r.createdAt, r.updatedAt⟩

/-- A decoded generic JSON value as Go encoding-json yields inside an
interface map: the import path only ever sees strings, null, and the numeric
id. -/
inductive JVal where
  | null
  | str (bs : List Nat)
  | num (n : Int)
  deriving DecidableEq, Repr

/-- One element of the loosely typed import list: the nine keys of the
unmarshalled map. -/
structure ImportRow where
  id : JVal
  title : JVal
  url : JVal
  username : JVal
  password : JVal
  notes : JVal
  category : JVal
  createdAt : JVal
  updatedAt : JVal
  deriving DecidableEq, Repr

/-- Standard base64 alphabet character for a 6-bit value. -/
def b64Char (n : Nat) : Nat :=
  if n < 26 then 65 + n
  else if n < 52 then 97 + (n - 26)
  else if n < 62 then 48 + (n - 52)
  else if n = 62 then 43 else 47

/-- Modelled from Go encoding-base64 StdEncoding semantics: three input bytes
become four alphabet characters, with equals-sign padding for a short final
group. -/
def base64Encode : List Nat → List Nat
  | [] => []
  | [a] => [b64Char (a / 4), b64Char (a % 4 * 16), 61, 61]
  | [a, b] => [b64Char (a / 4), b64Char (a % 4 * 16 + b / 16), b64Char (b % 16 * 4), 61]
  | a :: b :: c :: rest =>
    b64Char (a / 4) :: b64Char (a % 4 * 16 + b / 16) ::
    b64Char (b % 16 * 4 + c / 64) :: b64Char (c % 64) :: base64Encode rest

/-- Value of a base64 alphabet character. -/
def b64Value (c : Nat) : Option Nat :=
  if 65 ≤ c ∧ c ≤ 90 then some (c - 65)
  else if 97 ≤ c ∧ c ≤ 122 then some (c - 97 + 26)
  else if 48 ≤ c ∧ c ≤ 57 then some (c - 48 + 52)
  else if c = 43 then some 62
  else if c = 47 then some 63
  else none

/-- Modelled from Go encoding-base64 StdEncoding semantics: DecodeString of a
well-padded standard encoding, failing on anything else. -/
def base64Decode : List Nat → Option (List Nat)
  | [] => some []
  | a :: b :: c :: d :: rest => do
    let va ← b64Value a
    let vb ← b64Value b
    if c = 61 then
      if d = 61 ∧ rest = [] then some [va * 4 + vb / 16] else none
    else do
      let vc ← b64Value c
      if d = 61 then
        if rest = [] then some [va * 4 + vb / 16, vb % 16 * 16 + vc / 4] else none
      else do
        let vd ← b64Value d
        let tail ← base64Decode rest
        some ([va * 4 + vb / 16, vb % 16 * 16 + vc / 4, vc % 4 * 64 + vd] ++ tail)
  | _ => none

/-- Four-byte little-endian length marker of the structural serialization. -/
def encLen (n : Nat) : List Nat :=
  [n % 256, n / 256 % 256, n / 65536 % 256, n / 16777216 % 256]

/-- Reading back a length marker. -/
def decLen : List Nat → Option (Nat × List Nat)
  | a :: b :: c :: d :: rest => some (a + 256 * b + 65536 * c + 16777216 * d, rest)
  | _ => none

/-- Length-prefixed byte field. -/
def encBytes (bs : List Nat) : List Nat := encLen bs.length ++ bs

/-- Reading back a length-prefixed byte field. -/
def decBytes (input : List Nat) : Option (List Nat × List Nat) := do
  let (n, rest) ← decLen input
  if n ≤ rest.length then some (rest.take n, rest.drop n) else none

/-- Tagged optional byte field (a nil slice against a present one). -/
def encOptBytes : Option (List Nat) → List Nat
  | none => [0]
  | some bs => 1 :: encBytes bs

/-- Reading back an optional byte field. -/
def decOptBytes : List Nat → Option (Option (List Nat) × List Nat)
  | 0 :: rest => some (none, rest)
  | 1 :: rest => do
    let (bs, r) ← decBytes rest
    some (some bs, r)
  | _ => none

/-- Signed integer field. -/
def encInt (n : Int) : List Nat :=
  (if n < 0 then 1 else 0) :: encLen n.natAbs

/-- Reading back a signed integer field. -/
def decInt : List Nat → Option (Int × List Nat)
  | s :: rest => do
    let (m, r) ← decLen rest
    if s = 0 then some ((m : Int), r)
    else if s = 1 then some (-(m : Int), r)
    else none
  | _ => none

/-- Serialized bytes of one export row. -/
def encodeRow (r : ExportRow) : List Nat :=
  encInt r.id ++ encBytes r.title ++ encBytes r.url ++ encBytes r.username ++
  encOptBytes r.password ++ encOptBytes r.notes ++ encBytes r.category ++
  encBytes r.createdAt ++ encBytes r.updatedAt

/-- Reading back one export row. -/
def decodeRow (input : List Nat) : Option (ExportRow × List Nat) := do
  let (id, i1) ← decInt input
  let (title, i2) ← decBytes i1
  let (url, i3) ← decBytes i2
  let (username, i4) ← decBytes i3
  let (password, i5) ← decOptBytes i4
  let (notes, i6) ← decOptBytes i5
  let (category, i7) ← decBytes i6
  let (createdAt, i8) ← decBytes i7
  let (updatedAt, i9) ← decBytes i8
  some (⟨id, title, url, username, password, notes, category, createdAt, updatedAt⟩, i9)

/-- Reading back a counted sequence of export rows. -/
def decodeRows : Nat → List Nat → Option (List ExportRow)
  | 0, rest => if rest = [] then some [] else none
  | n + 1, rest => do
    let (r, rest1) ← decodeRow rest
    let rs ← decodeRows n rest1
    some (r :: rs)

/-- Modelled from Go encoding-json semantics: json.Marshal of the export list
(a structural, invertible serialization standing in for the JSON text). -/
def jsonMarshal (rows : List ExportRow) : List Nat :=
  encLen rows.length ++ (rows.map encodeRow).flatten

/-- Modelled from Go encoding-json semantics: Unmarshal into generic interface
maps turns every byte-slice field of the marshalled rows into the STRING of
its base64 text, and every nil slice into null; this conversion is the
documented Marshal/Unmarshal round trip for byte slices and is where the
importing pipeline stops carrying the original blob bytes. -/
def unmarshalledRow (r : ExportRow) : ImportRow :=
  ⟨.num r.id, .str r.title, .str r.url, .str r.username,
   (match r.password with | some bs => .str (base64Encode bs) | none => .null),
   (match r.notes with | some bs => .str (base64Encode bs) | none => .null),
   .str r.category, .str r.createdAt, .str r.updatedAt⟩

/-- Modelled from Go encoding-json semantics: json.Unmarshal of serialized
export rows into a list of generic maps. -/
def jsonUnmarshalRows (bs : List Nat) : Option (List ImportRow) := do
  let (n, rest) ← decLen bs
  let rows ← decodeRows n rest
  some (rows.map unmarshalledRow)

/-- The sqlite binding of a generic interface value: nil binds NULL, a string
binds TEXT (also into a BLOB-declared column, sqlite being dynamically
typed), a number binds its numeric value. -/
def jvalToSql : JVal → SqlValue
  | .null => .null
  | .str bs => .text bs
  | .num n => .int n

/-- The clear text columns of an inserted import row; on the export-import
pipeline these are always strings, other shapes are flattened to text since
no claim observes them (a NULL in the NOT NULL title column is one of the
failure causes the fault oracle of ImportData stands for). -/
def jvalToText : JVal → List Nat
  | .null => []
  | .str bs => bs
  | .num n => (if n < 0 then [45] else []) ++ (Nat.toDigits 10 n.natAbs).map Char.toNat

/-- The row one prepared INSERT of ImportData produces (the eight bound
fields, a store-assigned id). -/
def importRowToStored (id : Int) (e : ImportRow) : StoredRow :=
  ⟨id, jvalToText e.title, jvalToText e.url, jvalToText e.username,
   jvalToSql e.password, jvalToSql e.notes, jvalToText e.category,
   jvalToText e.createdAt, jvalToText e.updatedAt⟩

/-- The rows a successful import appends, with consecutive assigned ids. -/
def importedRows (nextId : Int) : List ImportRow → List StoredRow
  | [] => []
  | e :: rest => importRowToStored nextId e :: importedRows (nextId + 1) rest

/-- The statement loop of ImportData inside the transaction: each entry is
inserted in order; failOn is the fault oracle deciding whether the i-th
statement execution fails (standing for any mid-batch failure cause). -/
def importLoop (tx : DBState) (entries : List ImportRow) (i : Nat)
    (failOn : Nat → Bool) : Except StorageErr DBState :=
  match entries with
  | [] => .ok tx
  | e :: rest =>
    if failOn i then .error .execFailed
    else
      importLoop
        ⟨tx.salt, tx.testVector, tx.rows ++ [importRowToStored tx.nextId e],
         tx.nextId + 1⟩
        rest (i + 1) failOn

/-- SQLiteStorage.ImportData: one transaction around the whole batch; on any
statement failure the deferred Rollback leaves the database exactly as it
was, on success Commit publishes every inserted row. -/
def ImportData (db : DBState) (entries : List ImportRow) (failOn : Nat → Bool) :
    DBState × Option StorageErr :=
  match importLoop db entries 0 failOn with
  | .ok tx => (tx, none)
  | .error e => (db, some e)

end Storage

namespace Manager

/-- pkg-manager PasswordManager: the volatile session state. The lastActivity
time.Time field is elided, no claim observes it; masterKey is a possibly nil
byte slice and initialized the lifecycle flag. -/
structure PasswordManager where
  masterKey : Option (List Nat)
  initialized : Bool
  deriving DecidableEq, Repr

/-- Manager level errors: notInitialized is the not-unlocked gating error
(the NotUnlocked of the spec), invalidMasterPassword the InvalidCredential
one; storage, crypto, base64 and JSON failures are wrapped and surfaced. -/
inductive MgrError where
  | notInitialized
  | invalidMasterPassword
  | storage (e : Storage.StorageErr)
  | crypto (e : Crypto.CryptoErr)
  | badBase64
  | badJson
  deriving DecidableEq, Repr

/-- The uniform shape of an operation result: the returned value or error,
the session state after the call, the persistent state after the call. -/
def MgrResult (α : Type) : Type :=
  Except MgrError α × PasswordManager × Storage.DBState

/-- The key bytes the manager hands the crypto service: the nil slice when no
master key is held. -/
def keyBytes (pm : PasswordManager) : List Nat := pm.masterKey.getD []

/-- The fixed test string of CreateMasterPassword. -/
def testData : List Nat :=
  strBytes "This is a test string to verify the master password."

/-- PasswordManager.CreateMasterPassword: generate a salt (the random draw is
the salt argument), save it, derive the master key (assigned to the session
before any later failure could return), encrypt the fixed test string under a
fresh nonce, save the vector, and mark the session initialized. -/
def CreateMasterPassword (pm : PasswordManager) (db : Storage.DBState)
    (masterPassword : List Nat) (salt nonce : List Nat) : MgrResult Unit :=
  let db1 := Storage.SaveSalt db salt
  match Crypto.DeriveKey masterPassword salt with
  | .error e => (.error (.crypto e), ⟨none, pm.initialized⟩, db1)
  | .ok key =>
    let pm1 : PasswordManager := ⟨some key, pm.initialized⟩
    match Crypto.Encrypt testData key nonce with
    | .error e => (.error (.crypto e), pm1, db1)
    | .ok encryptedTest =>
      let db2 := Storage.SaveTestVector db1 encryptedTest
      (.ok (), ⟨some key, true⟩, db2)

/-- PasswordManager.UnlockVault: load the salt, derive the candidate key, load
the test vector (a nil vector when none is stored), verify, and only on
success install the key and set initialized. -/
def UnlockVault (pm : PasswordManager) (db : Storage.DBState)
    (masterPassword : List Nat) : MgrResult Unit :=
  match Storage.GetSalt db with
  | .error e => (.error (.storage e), pm, db)
  | .ok salt =>
    match Crypto.DeriveKey masterPassword salt with
    | .error e => (.error (.crypto e), pm, db)
    | .ok key =>
      match Storage.GetTestVector db with
      | .error e => (.error (.storage e), pm, db)
      | .ok testVector =>
        if Crypto.VerifyKey key (testVector.getD []) then
          (.ok (), ⟨some key, true⟩, db)
        else
          (.error .invalidMasterPassword, pm, db)

/-- PasswordManager.IsLocked. -/
def IsLocked (pm : PasswordManager) : Bool := !pm.initialized

/-- PasswordManager.Lock: drop the key, clear the flag. -/
def Lock (_pm : PasswordManager) : PasswordManager := ⟨none, false⟩

/-- PasswordManager.AddPassword: gate on initialized, encrypt the password
field always and the notes field only when non-empty (a nil slice otherwise),
then insert. The two fresh random nonces and the textual clock value are
explicit arguments. -/
def AddPassword (pm : PasswordManager) (db : Storage.DBState)
    (entry : Models.PasswordEntry) (noncePw nonceNotes : List Nat)
    (now : List Nat) : MgrResult Int :=
  if !pm.initialized then (.error .notInitialized, pm, db)
  else
    match Crypto.Encrypt entry.Password (keyBytes pm) noncePw with
    | .error e => (.error (.crypto e), pm, db)
    | .ok encPassword =>
      let encNotesRes : Except Crypto.CryptoErr (Option (List Nat)) :=
        if entry.Notes = [] then .ok none
        else (Crypto.Encrypt entry.Notes (keyBytes pm) nonceNotes).map some
      match encNotesRes with
      | .error e => (.error (.crypto e), pm, db)
      | .ok encNotes =>
        let (id, db1) := Storage.AddPassword db entry encPassword encNotes now
        (.ok id, pm, db1)

/-- PasswordManager.GetPassword: gate on initialized, fetch the row, decrypt
the password field, decrypt the notes field only when its scanned slice is
non-nil and non-empty. -/
def GetPassword (pm : PasswordManager) (db : Storage.DBState) (id : Int) :
    MgrResult Models.PasswordEntry :=
  if !pm.initialized then (.error .notInitialized, pm, db)
  else
    match Storage.GetPassword db id with
    | .error e => (.error (.storage e), pm, db)
    | .ok (entry, encPassword, encNotes) =>
      match Crypto.Decrypt (encPassword.getD []) (keyBytes pm) with
      | .error e => (.error (.crypto e), pm, db)
      | .ok password =>
        let entry1 : Models.PasswordEntry :=
          ⟨entry.ID, entry.Title, entry.URL, entry.Username, password,
           entry.Notes, entry.Category, entry.CreatedAt, entry.LastUpdated⟩
        match encNotes with
        | none => (.ok entry1, pm, db)
        | some notesBytes =>
          if notesBytes.length > 0 then
            match Crypto.Decrypt notesBytes (keyBytes pm) with
            | .error e => (.error (.crypto e), pm, db)
            | .ok notes =>
              (.ok ⟨entry1.ID, entry1.Title, entry1.URL, entry1.Username,
                    entry1.Password, notes, entry1.Category, entry1.CreatedAt,
                    entry1.LastUpdated⟩, pm, db)
          else (.ok entry1, pm, db)

/-- PasswordManager.GetAllPasswords: gate on initialized, delegate. -/
def GetAllPasswords (pm : PasswordManager) (db : Storage.DBState) :
    MgrResult (List Models.PasswordEntry) :=
  if !pm.initialized then (.error .notInitialized, pm, db)
  else (.ok (Storage.GetAllPasswords db), pm, db)

/-- PasswordManager.UpdatePassword: gate on initialized, encrypt like
AddPassword, delegate the UPDATE. -/
def UpdatePassword (pm : PasswordManager) (db : Storage.DBState)
    (entry : Models.PasswordEntry) (noncePw nonceNotes : List Nat)
    (now : List Nat) : MgrResult Unit :=
  if !pm.initialized then (.error .notInitialized, pm, db)
  else
    match Crypto.Encrypt entry.Password (keyBytes pm) noncePw with
    | .error e => (.error (.crypto e), pm, db)
    | .ok encPassword =>
      let encNotesRes : Except Crypto.CryptoErr (Option (List Nat)) :=
        if entry.Notes = [] then .ok none
        else (Crypto.Encrypt entry.Notes (keyBytes pm) nonceNotes).map some
      match encNotesRes with
      | .error e => (.error (.crypto e), pm, db)
      | .ok encNotes =>
        (.ok (), pm, Storage.UpdatePassword db entry encPassword encNotes now)

/-- PasswordManager.DeletePassword: gate on initialized, delegate. -/
def DeletePassword (pm : PasswordManager) (db : Storage.DBState) (id : Int) :
    MgrResult Unit :=
  if !pm.initialized then (.error .notInitialized, pm, db)
  else (.ok (), pm, Storage.DeletePassword db id)

/-- PasswordManager.SearchPasswords: gate on initialized, delegate. -/
def SearchPasswords (pm : PasswordManager) (db : Storage.DBState)
    (params : Models.SearchParams) : MgrResult (List Models.PasswordEntry) :=
  if !pm.initialized then (.error .notInitialized, pm, db)
  else
    match Storage.SearchPasswords db params with
    | .error e => (.error (.storage e), pm, db)
    | .ok entries => (.ok entries, pm, db)

/-- PasswordManager.ExportVault: gate on initialized, read every full row,
serialize, encrypt the whole serialization under a fresh nonce, base64
encode; the os.WriteFile step is embedded as returning the file contents
written. -/
def ExportVault (pm : PasswordManager) (db : Storage.DBState)
    (nonce : List Nat) : MgrResult (List Nat) :=
  if !pm.initialized then (.error .notInitialized, pm, db)
  else
    let entries := Storage.ExportData db
    let jsonData := Storage.jsonMarshal entries
    match Crypto.Encrypt jsonData (keyBytes pm) nonce with
    | .error e => (.error (.crypto e), pm, db)
    | .ok encData => (.ok (Storage.base64Encode encData), pm, db)

/-- PasswordManager.ImportVault: gate on initialized, base64 decode the file
contents (the os.ReadFile step is embedded as the fileData argument), decrypt,
unmarshal, and hand the generic rows to the transactional bulk insert. -/
def ImportVault (pm : PasswordManager) (db : Storage.DBState)
    (fileData : List Nat) (failOn : Nat → Bool) : MgrResult Unit :=
  if !pm.initialized then (.error .notInitialized, pm, db)
  else
    match Storage.base64Decode fileData with
    | none => (.error .badBase64, pm, db)
    | some decodedData =>
      match Crypto.Decrypt decodedData (keyBytes pm) with
      | .error e => (.error (.crypto e), pm, db)
      | .ok jsonData =>
        match Storage.jsonUnmarshalRows jsonData with
        | none => (.error .badJson, pm, db)
        | some entries =>
          match Storage.ImportData db entries failOn with
          | (db1, none) => (.ok (), pm, db1)
          | (db1, some e) => (.error (.storage e), pm, db1)

end Manager

namespace Fixtures

/-- A valid 32-byte AES key used by concrete instances. -/
def key32 : List Nat := List.range 32

/-- A 12-byte nonce used by concrete instances. -/
def nonce12 : List Nat := List.range 12

/-- A 16-byte salt used by concrete instances. -/
def salt16 : List Nat := List.range 16

/-- A fresh database. -/
def emptyDB : Storage.DBState := ⟨none, none, [], 1⟩

/-- A locked, keyless session. -/
def lockedPM : Manager.PasswordManager := ⟨none, false⟩

/-- An unlocked session holding key32. -/
def openPM : Manager.PasswordManager := ⟨some key32, true⟩

/-- A record as supplied by a caller. -/
def entry0 : Models.PasswordEntry :=
  ⟨0, strBytes "t", strBytes "u", strBytes "n",
   strBytes "p@ssW0rd!", strBytes "secret note", strBytes "c", [], []⟩

/-- The same record with empty notes. -/
def entry0NoNotes : Models.PasswordEntry :=
  ⟨0, strBytes "t", strBytes "u", strBytes "n",
   strBytes "p@ssW0rd!", [], strBytes "c", [], []⟩

/-- Empty search parameters. -/
def params0 : Models.SearchParams := ⟨[], [], [], false, 0, 0⟩

/-- An encrypted password blob as AddPassword would store it under key32. -/
def pb0 : List Nat := nonce12 ++ Crypto.gcmSealBody key32 (strBytes "p")

/-- A stored row holding pb0 in its password column and no notes. -/
def row0 : Storage.StoredRow :=
  ⟨1, strBytes "t", strBytes "u", strBytes "n", .blob pb0, .null,
   strBytes "c", strBytes "d1", strBytes "d2"⟩

/-- A one-record vault. -/
def db5 : Storage.DBState := ⟨some salt16, some [1], [row0], 2⟩

/-- The file contents ExportVault writes for db5 under key32 and nonce12. -/
def file5 : List Nat :=
  Storage.base64Encode
    (nonce12 ++ Crypto.gcmSealBody key32 (Storage.jsonMarshal (Storage.ExportData db5)))

/-- The database after importing file5 back into db5. -/
def db5After : Storage.DBState :=
  (Manager.ImportVault openPM db5 file5 (fun _ => false)).2.2

/-- The row the import inserts for the exported record. -/
def row5Imported : Storage.StoredRow :=
  Storage.importRowToStored 2
    (Storage.unmarshalledRow
      ⟨1, strBytes "t", strBytes "u", strBytes "n", some pb0, none,
       strBytes "c", strBytes "d1", strBytes "d2"⟩)

/-- A concrete correct master password. -/
def correctPw : List Nat := strBytes "CorrectHorse1"

/-- A concrete wrong master password. -/
def wrongPw : List Nat := strBytes "WrongPass"

/-- The test vector a vault created with correctPw over salt16 stores. -/
def tv3 : List Nat :=
  nonce12 ++ Crypto.gcmSealBody (Crypto.deriveKeyBytes correctPw salt16) Manager.testData

/-- A locked vault created with correctPw. -/
def db3 : Storage.DBState := ⟨some salt16, some tv3, [], 1⟩

/-- A generic import row as the unmarshaller yields it. -/
def impRow0 : Storage.ImportRow :=
  Storage.unmarshalledRow
    ⟨1, strBytes "t", strBytes "u", strBytes "n", some pb0, none,
     strBytes "c", strBytes "d1", strBytes "d2"⟩

/-- Generator options asking for lowercase and uppercase, length one. -/
def lowerUpperOpts : Generator.PasswordOptions :=
  ⟨1, true, true, false, false, false, false⟩

/-- Generator options asking only for lowercase, length four. -/
def lowerOnlyOpts : Generator.PasswordOptions :=
  ⟨4, true, false, false, false, false, false⟩

/-- The constant-zero random stream: every draw picks the first character of
the character set. -/
def constZeroStream : Nat → Nat := fun _ => 0

end Fixtures

end PassManager

namespace PassManager

/-! Shared helper lemmas about the crypto embedding. -/

theorem aesKeySizeOk_of_len32 {key : List Nat} (h : key.length = 32) :
    Crypto.aesKeySizeOk key = true := by
  simp [Crypto.aesKeySizeOk, h]

theorem encrypt_eq_ok {key : List Nat} (x nonce : List Nat)
    (hk : Crypto.aesKeySizeOk key = true) :
    Crypto.Encrypt x key nonce = .ok (nonce ++ Crypto.gcmSealBody key x) := by
  simp [Crypto.Encrypt, hk]

theorem gcmOpen_sealed (key x : List Nat) :
    Crypto.gcmOpen key (Crypto.gcmSealBody key x) = some x := by
  unfold Crypto.gcmOpen Crypto.gcmSealBody
  have htake : ((key.length :: key) ++ x).take (key.length + 1) = key.length :: key :=
    List.take_left' (by simp)
  have hdrop : ((key.length :: key) ++ x).drop (key.length + 1) = x :=
    List.drop_left' (by simp)
  rw [htake, hdrop, if_pos rfl]

theorem decrypt_of_sealed {key nonce : List Nat} (x : List Nat)
    (hk : Crypto.aesKeySizeOk key = true) (hn : nonce.length = 12) :
    Crypto.Decrypt (nonce ++ Crypto.gcmSealBody key x) key = .ok x := by
  have hdrop : (nonce ++ Crypto.gcmSealBody key x).drop Crypto.nonceSize
      = Crypto.gcmSealBody key x := List.drop_left' hn
  have hlen : ¬ (nonce ++ Crypto.gcmSealBody key x).length < Crypto.nonceSize := by
    simp [Crypto.nonceSize, hn]
  simp only [Crypto.Decrypt, hk, if_true, if_neg hlen, hdrop, gcmOpen_sealed]

theorem deriveKey_eq_ok (p s : List Nat) :
    Crypto.DeriveKey p s = .ok (Crypto.deriveKeyBytes p s) := rfl

theorem deriveKeyBytes_length (p s : List Nat) :
    (Crypto.deriveKeyBytes p s).length = 32 := by
  simp [Crypto.deriveKeyBytes, Crypto.argon2IDKey, Crypto.argonKeyLen]

/-- C2: for every plaintext and every valid 32-byte AES key, decrypting the
output of encryption (under the fresh 12-byte nonce the encryption call drew)
with the same key succeeds and returns exactly the original plaintext. -/
theorem C2_encrypt_decrypt_roundtrip (x key nonce c : List Nat)
    (hk : key.length = 32) (hn : nonce.length = 12)
    (he : Crypto.Encrypt x key nonce = .ok c) :
    Crypto.Decrypt c key = .ok x := by
  have hok := aesKeySizeOk_of_len32 hk
  rw [encrypt_eq_ok x nonce hok] at he
  cases he
  exact decrypt_of_sealed x hok hn

/-- C2 witness: the round trip evaluated at a concrete plaintext, key and
nonce. -/
theorem C2_witness :
    (Fixtures.key32.length = 32) ∧ (Fixtures.nonce12.length = 12) ∧
    Crypto.Encrypt [104, 105] Fixtures.key32 Fixtures.nonce12 =
      .ok (Fixtures.nonce12 ++ Crypto.gcmSealBody Fixtures.key32 [104, 105]) ∧
    Crypto.Decrypt (Fixtures.nonce12 ++ Crypto.gcmSealBody Fixtures.key32 [104, 105])
      Fixtures.key32 = .ok [104, 105] :=
  ⟨by decide, by decide, rfl,
   C2_encrypt_decrypt_roundtrip [104, 105] Fixtures.key32 Fixtures.nonce12 _
     (by decide) (by decide) rfl⟩

/-- C1: with the vault Locked or Uninitialized (initialized flag false), every
data operation of the manager (add, get, get-all, update, delete, search,
export, import) fails at once with the not-initialized (NotUnlocked) error,
performs no storage access, and leaves both the persistent store and the
session key state exactly unchanged. -/
theorem C1_locked_ops_gated (pm : Manager.PasswordManager) (db : Storage.DBState)
    (h : pm.initialized = false) (entry : Models.PasswordEntry)
    (noncePw nonceNotes now : List Nat) (id : Int)
    (params : Models.SearchParams) (nonce fileData : List Nat)
    (failOn : Nat → Bool) :
    Manager.AddPassword pm db entry noncePw nonceNotes now =
      (.error .notInitialized, pm, db) ∧
    Manager.GetPassword pm db id = (.error .notInitialized, pm, db) ∧
    Manager.GetAllPasswords pm db = (.error .notInitialized, pm, db) ∧
    Manager.UpdatePassword pm db entry noncePw nonceNotes now =
      (.error .notInitialized, pm, db) ∧
    Manager.DeletePassword pm db id = (.error .notInitialized, pm, db) ∧
    Manager.SearchPasswords pm db params = (.error .notInitialized, pm, db) ∧
    Manager.ExportVault pm db nonce = (.error .notInitialized, pm, db) ∧
    Manager.ImportVault pm db fileData failOn = (.error .notInitialized, pm, db) := by
  refine ⟨?_, ?_, ?_, ?_, ?_, ?_, ?_, ?_⟩ <;>
    simp [Manager.AddPassword, Manager.GetPassword, Manager.GetAllPasswords,
      Manager.UpdatePassword, Manager.DeletePassword, Manager.SearchPasswords,
      Manager.ExportVault, Manager.ImportVault, h]

/-- C1 witness: the gating evaluated on a concrete locked session over a
concrete store. -/
theorem C1_witness :
    (Fixtures.lockedPM.initialized = false) ∧
    Manager.AddPassword Fixtures.lockedPM Fixtures.db5 Fixtures.entry0
      Fixtures.nonce12 Fixtures.nonce12 [] =
      (.error .notInitialized, Fixtures.lockedPM, Fixtures.db5) ∧
    Manager.GetPassword Fixtures.lockedPM Fixtures.db5 1 =
      (.error .notInitialized, Fixtures.lockedPM, Fixtures.db5) ∧
    Manager.GetAllPasswords Fixtures.lockedPM Fixtures.db5 =
      (.error .notInitialized, Fixtures.lockedPM, Fixtures.db5) ∧
    Manager.UpdatePassword Fixtures.lockedPM Fixtures.db5 Fixtures.entry0
      Fixtures.nonce12 Fixtures.nonce12 [] =
      (.error .notInitialized, Fixtures.lockedPM, Fixtures.db5) ∧
    Manager.DeletePassword Fixtures.lockedPM Fixtures.db5 1 =
      (.error .notInitialized, Fixtures.lockedPM, Fixtures.db5) ∧
    Manager.SearchPasswords Fixtures.lockedPM Fixtures.db5 Fixtures.params0 =
      (.error .notInitialized, Fixtures.lockedPM, Fixtures.db5) ∧
    Manager.ExportVault Fixtures.lockedPM Fixtures.db5 Fixtures.nonce12 =
      (.error .notInitialized, Fixtures.lockedPM, Fixtures.db5) ∧
    Manager.ImportVault Fixtures.lockedPM Fixtures.db5 Fixtures.file5 (fun _ => false) =
      (.error .notInitialized, Fixtures.lockedPM, Fixtures.db5) := by
  have h := C1_locked_ops_gated Fixtures.lockedPM Fixtures.db5 rfl Fixtures.entry0
    Fixtures.nonce12 Fixtures.nonce12 [] 1 Fixtures.params0 Fixtures.nonce12
    Fixtures.file5 (fun _ => false)
  exact ⟨rfl, h.1, h.2.1, h.2.2.1, h.2.2.2.1, h.2.2.2.2.1, h.2.2.2.2.2.1,
    h.2.2.2.2.2.2.1, h.2.2.2.2.2.2.2⟩

/-- C3: creating a vault with master password p and then unlocking with p
succeeds and leaves the session Unlocked holding the derived MasterKey; and
from any locked keyless session over a vault whose test vector rejects the
key derived from a password q, UnlockVault with q fails with the
invalid-master-password (InvalidCredential) error and the session stays
Locked with no key set. -/
theorem C3_authentication (pm0 : Manager.PasswordManager) (db0 : Storage.DBState)
    (p salt nonce : List Nat) (hn : nonce.length = 12)
    (q s tv : List Nat) (pmL : Manager.PasswordManager) (dbL : Storage.DBState)
    (hL1 : pmL.initialized = false) (hL2 : pmL.masterKey = none)
    (hs : dbL.salt = some s) (htv : dbL.testVector = some tv)
    (hbad : Crypto.VerifyKey (Crypto.deriveKeyBytes q s) tv = false) :
    (∃ db1, Manager.CreateMasterPassword pm0 db0 p salt nonce =
        (.ok (), ⟨some (Crypto.deriveKeyBytes p salt), true⟩, db1) ∧
      Manager.UnlockVault
          (Manager.Lock ⟨some (Crypto.deriveKeyBytes p salt), true⟩) db1 p =
        (.ok (), ⟨some (Crypto.deriveKeyBytes p salt), true⟩, db1)) ∧
    Manager.UnlockVault pmL dbL q = (.error .invalidMasterPassword, pmL, dbL) := by
  have hk32 := deriveKeyBytes_length p salt
  have hok := aesKeySizeOk_of_len32 hk32
  constructor
  · refine ⟨⟨some salt,
      some (nonce ++ Crypto.gcmSealBody (Crypto.deriveKeyBytes p salt) Manager.testData),
      db0.rows, db0.nextId⟩, ?_, ?_⟩
    · simp [Manager.CreateMasterPassword, deriveKey_eq_ok,
        Storage.SaveSalt, Storage.SaveTestVector,
        encrypt_eq_ok Manager.testData nonce hok]
    · simp [Manager.UnlockVault, Manager.Lock, Storage.GetSalt, deriveKey_eq_ok,
        Storage.GetTestVector, Crypto.VerifyKey,
        decrypt_of_sealed Manager.testData hok hn, Except.isOk, Except.toBool]
  · simp [Manager.UnlockVault, Storage.GetSalt, hs, deriveKey_eq_ok,
      Storage.GetTestVector, htv, hbad]

/-- C3 witness: a concrete create-lock-unlock run with the matching password
and a concrete rejected unlock with a wrong password. -/
theorem C3_witness :
    (Fixtures.nonce12.length = 12) ∧
    (Fixtures.lockedPM.initialized = false) ∧
    (Fixtures.lockedPM.masterKey = none) ∧
    (Fixtures.db3.salt = some Fixtures.salt16) ∧
    (Fixtures.db3.testVector = some Fixtures.tv3) ∧
    (Crypto.VerifyKey (Crypto.deriveKeyBytes Fixtures.wrongPw Fixtures.salt16)
      Fixtures.tv3 = false) ∧
    ((∃ db1, Manager.CreateMasterPassword Fixtures.lockedPM Fixtures.emptyDB
        Fixtures.correctPw Fixtures.salt16 Fixtures.nonce12 =
        (.ok (), ⟨some (Crypto.deriveKeyBytes Fixtures.correctPw Fixtures.salt16), true⟩,
         db1) ∧
      Manager.UnlockVault
        (Manager.Lock
          ⟨some (Crypto.deriveKeyBytes Fixtures.correctPw Fixtures.salt16), true⟩)
        db1 Fixtures.correctPw =
        (.ok (),
         ⟨some (Crypto.deriveKeyBytes Fixtures.correctPw Fixtures.salt16), true⟩,
         db1)) ∧
     Manager.UnlockVault Fixtures.lockedPM Fixtures.db3 Fixtures.wrongPw =
      (.error .invalidMasterPassword, Fixtures.lockedPM, Fixtures.db3)) :=
  ⟨by decide, rfl, rfl, rfl, rfl, by decide,
   C3_authentication Fixtures.lockedPM Fixtures.emptyDB Fixtures.correctPw
     Fixtures.salt16 Fixtures.nonce12 (by decide) Fixtures.wrongPw Fixtures.salt16
     Fixtures.tv3 Fixtures.lockedPM Fixtures.db3 rfl rfl rfl rfl (by decide)⟩

theorem find?_none_of_fresh (rows : List Storage.StoredRow) (id : Int)
    (hfresh : ∀ r ∈ rows, r.id ≠ id) :
    rows.find? (fun r => r.id == id) = none := by
  rw [List.find?_eq_none]
  intro r hr
  simpa using hfresh r hr

/-- C4: adding a record while Unlocked (any password, any notes including
empty) stores the password field as an encrypted blob always and the notes
field as an encrypted blob exactly when non-empty (absent otherwise), and
GetPassword on the id AddPassword returned yields the password and notes
exactly as supplied. -/
theorem C4_record_roundtrip (pm : Manager.PasswordManager) (db : Storage.DBState)
    (entry : Models.PasswordEntry) (k noncePw nonceNotes now : List Nat)
    (hinit : pm.initialized = true) (hkey : pm.masterKey = some k)
    (hk : k.length = 32) (h1 : noncePw.length = 12) (h2 : nonceNotes.length = 12)
    (hfresh : ∀ r ∈ db.rows, r.id ≠ db.nextId) :
    ∃ row db1,
      Manager.AddPassword pm db entry noncePw nonceNotes now =
        (.ok db.nextId, pm, db1) ∧
      db1.rows = db.rows ++ [row] ∧
      row.password = .blob (noncePw ++ Crypto.gcmSealBody k entry.Password) ∧
      (entry.Notes = [] → row.notes = .null) ∧
      (entry.Notes ≠ [] →
        row.notes = .blob (nonceNotes ++ Crypto.gcmSealBody k entry.Notes)) ∧
      ∃ out, Manager.GetPassword pm db1 db.nextId = (.ok out, pm, db1) ∧
        out.Password = entry.Password ∧ out.Notes = entry.Notes := by
  have hok := aesKeySizeOk_of_len32 hk
  by_cases hnotes : entry.Notes = []
  · refine ⟨⟨db.nextId, entry.Title, entry.URL, entry.Username,
      .blob (noncePw ++ Crypto.gcmSealBody k entry.Password), .null,
      entry.Category, now, now⟩,
      ⟨db.salt, db.testVector, db.rows ++ [_], db.nextId + 1⟩,
      ?_, rfl, rfl, fun _ => rfl, fun hc => absurd hnotes hc, ?_⟩
    · simp [Manager.AddPassword, hinit, Manager.keyBytes, hkey,
        encrypt_eq_ok _ _ hok, hnotes, Storage.AddPassword]
    · refine ⟨⟨db.nextId, entry.Title, entry.URL, entry.Username, entry.Password,
        [], entry.Category, now, now⟩, ?_, rfl, hnotes.symm⟩
      simp [Manager.GetPassword, hinit, Storage.GetPassword, Storage.findRow,
        find?_none_of_fresh db.rows db.nextId hfresh, Storage.scanBytes,
        Manager.keyBytes, hkey, decrypt_of_sealed entry.Password hok h1]
  · refine ⟨⟨db.nextId, entry.Title, entry.URL, entry.Username,
      .blob (noncePw ++ Crypto.gcmSealBody k entry.Password),
      .blob (nonceNotes ++ Crypto.gcmSealBody k entry.Notes),
      entry.Category, now, now⟩,
      ⟨db.salt, db.testVector, db.rows ++ [_], db.nextId + 1⟩,
      ?_, rfl, rfl, fun hc => absurd hc hnotes, fun _ => rfl, ?_⟩
    · simp [Manager.AddPassword, hinit, Manager.keyBytes, hkey,
        encrypt_eq_ok _ _ hok, hnotes, Storage.AddPassword, Except.map]
    · refine ⟨⟨db.nextId, entry.Title, entry.URL, entry.Username, entry.Password,
        entry.Notes, entry.Category, now, now⟩, ?_, rfl, rfl⟩
      have hlen : 0 < (nonceNotes ++ Crypto.gcmSealBody k entry.Notes).length := by
        simp only [Crypto.gcmSealBody, List.length_append, List.length_cons]
        omega
      have hne : Crypto.gcmSealBody k entry.Notes ≠ [] := by
        simp [Crypto.gcmSealBody]
      simp [Manager.GetPassword, hinit, Storage.GetPassword, Storage.findRow,
        find?_none_of_fresh db.rows db.nextId hfresh, Storage.scanBytes,
        Manager.keyBytes, hkey, decrypt_of_sealed entry.Password hok h1,
        decrypt_of_sealed entry.Notes hok h2, hlen, hne]

/-- C4 witness: a concrete add-then-get round trip with non-empty notes, and
one with empty notes, on a fresh unlocked vault. -/
theorem C4_witness :
    (Fixtures.openPM.initialized = true) ∧
    (Fixtures.openPM.masterKey = some Fixtures.key32) ∧
    (Fixtures.key32.length = 32) ∧ (Fixtures.nonce12.length = 12) ∧
    (∀ r ∈ Fixtures.emptyDB.rows, r.id ≠ Fixtures.emptyDB.nextId) ∧
    (∃ row db1,
      Manager.AddPassword Fixtures.openPM Fixtures.emptyDB Fixtures.entry0
        Fixtures.nonce12 Fixtures.nonce12 [] =
        (.ok Fixtures.emptyDB.nextId, Fixtures.openPM, db1) ∧
      db1.rows = Fixtures.emptyDB.rows ++ [row] ∧
      row.password =
        .blob (Fixtures.nonce12 ++
          Crypto.gcmSealBody Fixtures.key32 Fixtures.entry0.Password) ∧
      (Fixtures.entry0.Notes = [] → row.notes = .null) ∧
      (Fixtures.entry0.Notes ≠ [] →
        row.notes = .blob (Fixtures.nonce12 ++
          Crypto.gcmSealBody Fixtures.key32 Fixtures.entry0.Notes)) ∧
      ∃ out, Manager.GetPassword Fixtures.openPM db1 Fixtures.emptyDB.nextId =
          (.ok out, Fixtures.openPM, db1) ∧
        out.Password = Fixtures.entry0.Password ∧
        out.Notes = Fixtures.entry0.Notes) ∧
    (∃ row db1,
      Manager.AddPassword Fixtures.openPM Fixtures.emptyDB Fixtures.entry0NoNotes
        Fixtures.nonce12 Fixtures.nonce12 [] =
        (.ok Fixtures.emptyDB.nextId, Fixtures.openPM, db1) ∧
      db1.rows = Fixtures.emptyDB.rows ++ [row] ∧
      row.password =
        .blob (Fixtures.nonce12 ++
          Crypto.gcmSealBody Fixtures.key32 Fixtures.entry0NoNotes.Password) ∧
      (Fixtures.entry0NoNotes.Notes = [] → row.notes = .null) ∧
      (Fixtures.entry0NoNotes.Notes ≠ [] →
        row.notes = .blob (Fixtures.nonce12 ++
          Crypto.gcmSealBody Fixtures.key32 Fixtures.entry0NoNotes.Notes)) ∧
      ∃ out, Manager.GetPassword Fixtures.openPM db1 Fixtures.emptyDB.nextId =
          (.ok out, Fixtures.openPM, db1) ∧
        out.Password = Fixtures.entry0NoNotes.Password ∧
        out.Notes = Fixtures.entry0NoNotes.Notes) :=
  ⟨rfl, rfl, by decide, by decide, by simp [Fixtures.emptyDB],
   C4_record_roundtrip Fixtures.openPM Fixtures.emptyDB Fixtures.entry0
     Fixtures.key32 Fixtures.nonce12 Fixtures.nonce12 [] rfl rfl (by decide)
     (by decide) (by decide) (by simp [Fixtures.emptyDB]),
   C4_record_roundtrip Fixtures.openPM Fixtures.emptyDB Fixtures.entry0NoNotes
     Fixtures.key32 Fixtures.nonce12 Fixtures.nonce12 [] rfl rfl (by decide)
     (by decide) (by decide) (by simp [Fixtures.emptyDB])⟩

theorem importLoop_success (entries : List Storage.ImportRow) :
    ∀ (tx : Storage.DBState) (i : Nat) (failOn : Nat → Bool),
    (∀ j, j < entries.length → failOn (i + j) = false) →
    Storage.importLoop tx entries i failOn =
      .ok ⟨tx.salt, tx.testVector,
           tx.rows ++ Storage.importedRows tx.nextId entries,
           tx.nextId + entries.length⟩ := by
  induction entries with
  | nil =>
    intro tx i failOn _
    simp [Storage.importLoop, Storage.importedRows]
  | cons e rest ih =>
    intro tx i failOn h
    have h0 : failOn i = false := by simpa using h 0 (by simp)
    have hrest : ∀ j, j < rest.length → failOn (i + 1 + j) = false := by
      intro j hj
      have := h (j + 1) (by simpa using Nat.succ_lt_succ hj)
      simpa [Nat.add_assoc, Nat.add_comm 1 j] using this
    simp only [Storage.importLoop, h0, Bool.false_eq_true, if_false,
      ih _ (i + 1) failOn hrest]
    simp [Storage.importedRows, List.append_assoc]
    omega

theorem importLoop_failure (entries : List Storage.ImportRow) :
    ∀ (tx : Storage.DBState) (i : Nat) (failOn : Nat → Bool),
    (∃ j, j < entries.length ∧ failOn (i + j) = true) →
    Storage.importLoop tx entries i failOn = .error .execFailed := by
  induction entries with
  | nil =>
    intro tx i failOn h
    obtain ⟨j, hj, _⟩ := h
    simp at hj
  | cons e rest ih =>
    intro tx i failOn h
    by_cases h0 : failOn i = true
    · simp [Storage.importLoop, h0]
    · obtain ⟨j, hj, hf⟩ := h
      have hj0 : j ≠ 0 := by
        intro hz
        rw [hz] at hf
        simp at hf
        exact h0 hf
      obtain ⟨j1, rfl⟩ := Nat.exists_eq_succ_of_ne_zero hj0
      have h0f : failOn i = false := by simpa using h0
      simp only [Storage.importLoop, h0f, Bool.false_eq_true, if_false]
      exact ih _ (i + 1) failOn
        ⟨j1, by simpa using Nat.lt_of_succ_lt_succ hj,
         by simpa [Nat.add_assoc, Nat.add_comm 1 j1] using hf⟩

/-- C6: the bulk import is one all-or-nothing transaction: when no statement
of the batch fails, every record is inserted as a new row with consecutive
store-assigned ids after the untouched preexisting rows; when any statement
fails mid-batch the rollback leaves the stored state exactly as it was, with
no record of the batch inserted. -/
theorem C6_import_transaction (db : Storage.DBState)
    (entries : List Storage.ImportRow) (failOn : Nat → Bool) :
    ((∀ j, j < entries.length → failOn j = false) →
      Storage.ImportData db entries failOn =
        (⟨db.salt, db.testVector,
          db.rows ++ Storage.importedRows db.nextId entries,
          db.nextId + entries.length⟩, none)) ∧
    ((∃ j, j < entries.length ∧ failOn j = true) →
      Storage.ImportData db entries failOn = (db, some .execFailed)) := by
  constructor
  · intro h
    unfold Storage.ImportData
    rw [importLoop_success entries db 0 failOn (by simpa using h)]
  · intro h
    unfold Storage.ImportData
    rw [importLoop_failure entries db 0 failOn (by simpa using h)]

/-- C6 witness: a concrete one-row import, once with no failure and once with
the statement failing. -/
theorem C6_witness :
    (∀ j, j < [Fixtures.impRow0].length → (fun _ => false) j = false) ∧
    (∃ j, j < [Fixtures.impRow0].length ∧ (fun _ => true) j = true) ∧
    Storage.ImportData Fixtures.db5 [Fixtures.impRow0] (fun _ => false) =
      (⟨Fixtures.db5.salt, Fixtures.db5.testVector,
        Fixtures.db5.rows ++ Storage.importedRows Fixtures.db5.nextId [Fixtures.impRow0],
        Fixtures.db5.nextId + ([Fixtures.impRow0] : List Storage.ImportRow).length⟩,
       none) ∧
    Storage.ImportData Fixtures.db5 [Fixtures.impRow0] (fun _ => true) =
      (Fixtures.db5, some .execFailed) :=
  ⟨by simp, ⟨0, by simp⟩,
   (C6_import_transaction Fixtures.db5 [Fixtures.impRow0] (fun _ => false)).1
     (by simp),
   (C6_import_transaction Fixtures.db5 [Fixtures.impRow0] (fun _ => true)).2
     ⟨0, by simp⟩⟩

theorem searchPasswords_ok_shape (db : Storage.DBState)
    (params : Models.SearchParams) (es : List Models.PasswordEntry)
    (h : Storage.SearchPasswords db params = .ok es) :
    ∀ e ∈ es, e.Password = [] ∧ e.Notes = [] := by
  unfold Storage.SearchPasswords at h
  split at h
  · cases h
    intro e he
    rw [List.mem_map] at he
    obtain ⟨r, -, rfl⟩ := he
    exact ⟨rfl, rfl⟩
  · split at h
    · cases h
      intro e he
      rw [List.mem_map] at he
      obtain ⟨r, -, rfl⟩ := he
      exact ⟨rfl, rfl⟩
    · cases h

/-- C7: bulk listing and search never return the sensitive fields: every
entry GetAllPasswords or SearchPasswords yields has an empty Password and an
empty Notes field, only the clear metadata columns are carried. -/
theorem C7_bulk_never_reveals (pm : Manager.PasswordManager)
    (db : Storage.DBState) (params : Models.SearchParams) :
    (∀ es, (Manager.GetAllPasswords pm db).1 = .ok es →
      ∀ e ∈ es, e.Password = [] ∧ e.Notes = []) ∧
    (∀ es, (Manager.SearchPasswords pm db params).1 = .ok es →
      ∀ e ∈ es, e.Password = [] ∧ e.Notes = []) := by
  constructor
  · intro es h
    by_cases hi : pm.initialized
    · simp only [Manager.GetAllPasswords, hi, Bool.not_true, Bool.false_eq_true,
        if_false, Except.ok.injEq] at h
      cases h
      intro e he
      unfold Storage.GetAllPasswords at he
      rw [List.mem_map] at he
      obtain ⟨r, -, rfl⟩ := he
      exact ⟨rfl, rfl⟩
    · simp only [Bool.not_eq_true] at hi
      simp [Manager.GetAllPasswords, hi] at h
  · intro es h
    by_cases hi : pm.initialized
    · simp only [Manager.SearchPasswords, hi, Bool.not_true, Bool.false_eq_true,
        if_false] at h
      revert h
      cases hq : Storage.SearchPasswords db params with
      | error e => intro h; simp at h
      | ok es2 =>
        intro h
        simp only [Except.ok.injEq] at h
        cases h
        exact searchPasswords_ok_shape db params _ hq
    · simp only [Bool.not_eq_true] at hi
      simp [Manager.SearchPasswords, hi] at h

/-- C7 witness: listing and searching a concrete one-record unlocked vault
returns entries with empty sensitive fields. -/
theorem C7_witness :
    ((Manager.GetAllPasswords Fixtures.openPM Fixtures.db5).1 =
      .ok [Storage.publicEntry Fixtures.row0]) ∧
    ((Manager.SearchPasswords Fixtures.openPM Fixtures.db5 Fixtures.params0).1 =
      .ok [Storage.publicEntry Fixtures.row0]) ∧
    (∀ e ∈ [Storage.publicEntry Fixtures.row0], e.Password = [] ∧ e.Notes = []) ∧
    (∀ e ∈ [Storage.publicEntry Fixtures.row0], e.Password = [] ∧ e.Notes = []) :=
  ⟨rfl, rfl,
   (C7_bulk_never_reveals Fixtures.openPM Fixtures.db5 Fixtures.params0).1
     [Storage.publicEntry Fixtures.row0] rfl,
   (C7_bulk_never_reveals Fixtures.openPM Fixtures.db5 Fixtures.params0).2
     [Storage.publicEntry Fixtures.row0] rfl⟩

/-- C8 counterexample: the claim requires DeriveKey to return an error on an
empty salt, but at the concrete call with an empty salt DeriveKey returns a
key with no error. -/
theorem C8_counterexample :
    (Crypto.DeriveKey (strBytes "pw") []).isOk = true := rfl

/-- C8 amended: DeriveKey has no error conditions at all: for every password
and every salt of any length (the empty salt included) it succeeds and
returns a 32-byte key. -/
theorem C8_deriveKey_total (p s : List Nat) :
    ∃ k, Crypto.DeriveKey p s = .ok k ∧ k.length = 32 :=
  ⟨Crypto.deriveKeyBytes p s, rfl, deriveKeyBytes_length p s⟩

theorem reqStep_fst (st : Bool × Bool × Bool × Bool) (c : Nat)
    (h : (Generator.reqStep st c).1 = true) :
    st.1 = true ∨ Generator.containsRune Generator.lowercase c = true := by
  unfold Generator.reqStep at h
  by_cases hl : Generator.containsRune Generator.lowercase c = true <;>
  by_cases hu : Generator.containsRune Generator.uppercase c = true <;>
  by_cases hn : Generator.containsRune Generator.numbers c = true <;>
  by_cases hy : Generator.containsRune Generator.symbols c = true <;>
    simp_all

theorem reqStep_snd (st : Bool × Bool × Bool × Bool) (c : Nat)
    (h : (Generator.reqStep st c).2.1 = true) :
    st.2.1 = true ∨ Generator.containsRune Generator.uppercase c = true := by
  unfold Generator.reqStep at h
  by_cases hl : Generator.containsRune Generator.lowercase c = true <;>
  by_cases hu : Generator.containsRune Generator.uppercase c = true <;>
  by_cases hn : Generator.containsRune Generator.numbers c = true <;>
  by_cases hy : Generator.containsRune Generator.symbols c = true <;>
    simp_all

theorem reqStep_thd (st : Bool × Bool × Bool × Bool) (c : Nat)
    (h : (Generator.reqStep st c).2.2.1 = true) :
    st.2.2.1 = true ∨ Generator.containsRune Generator.numbers c = true := by
  unfold Generator.reqStep at h
  by_cases hl : Generator.containsRune Generator.lowercase c = true <;>
  by_cases hu : Generator.containsRune Generator.uppercase c = true <;>
  by_cases hn : Generator.containsRune Generator.numbers c = true <;>
  by_cases hy : Generator.containsRune Generator.symbols c = true <;>
    simp_all

theorem reqStep_fth (st : Bool × Bool × Bool × Bool) (c : Nat)
    (h : (Generator.reqStep st c).2.2.2 = true) :
    st.2.2.2 = true ∨ Generator.containsRune Generator.symbols c = true := by
  unfold Generator.reqStep at h
  by_cases hl : Generator.containsRune Generator.lowercase c = true <;>
  by_cases hu : Generator.containsRune Generator.uppercase c = true <;>
  by_cases hn : Generator.containsRune Generator.numbers c = true <;>
  by_cases hy : Generator.containsRune Generator.symbols c = true <;>
    simp_all

theorem foldl_reqStep_fst (pw : List Nat) :
    ∀ st : Bool × Bool × Bool × Bool, (pw.foldl Generator.reqStep st).1 = true →
    st.1 = true ∨ ∃ c ∈ pw, Generator.containsRune Generator.lowercase c = true := by
  induction pw with
  | nil => intro st h; left; simpa using h
  | cons c rest ih =>
    intro st h
    rw [List.foldl_cons] at h
    rcases ih _ h with h1 | ⟨d, hd, hdc⟩
    · rcases reqStep_fst st c h1 with h2 | h2
      · left; exact h2
      · right; exact ⟨c, by simp, h2⟩
    · right; exact ⟨d, by simp [hd], hdc⟩

theorem foldl_reqStep_snd (pw : List Nat) :
    ∀ st : Bool × Bool × Bool × Bool, (pw.foldl Generator.reqStep st).2.1 = true →
    st.2.1 = true ∨ ∃ c ∈ pw, Generator.containsRune Generator.uppercase c = true := by
  induction pw with
  | nil => intro st h; left; simpa using h
  | cons c rest ih =>
    intro st h
    rw [List.foldl_cons] at h
    rcases ih _ h with h1 | ⟨d, hd, hdc⟩
    · rcases reqStep_snd st c h1 with h2 | h2
      · left; exact h2
      · right; exact ⟨c, by simp, h2⟩
    · right; exact ⟨d, by simp [hd], hdc⟩

theorem foldl_reqStep_thd (pw : List Nat) :
    ∀ st : Bool × Bool × Bool × Bool, (pw.foldl Generator.reqStep st).2.2.1 = true →
    st.2.2.1 = true ∨ ∃ c ∈ pw, Generator.containsRune Generator.numbers c = true := by
  induction pw with
  | nil => intro st h; left; simpa using h
  | cons c rest ih =>
    intro st h
    rw [List.foldl_cons] at h
    rcases ih _ h with h1 | ⟨d, hd, hdc⟩
    · rcases reqStep_thd st c h1 with h2 | h2
      · left; exact h2
      · right; exact ⟨c, by simp, h2⟩
    · right; exact ⟨d, by simp [hd], hdc⟩

theorem foldl_reqStep_fth (pw : List Nat) :
    ∀ st : Bool × Bool × Bool × Bool, (pw.foldl Generator.reqStep st).2.2.2 = true →
    st.2.2.2 = true ∨ ∃ c ∈ pw, Generator.containsRune Generator.symbols c = true := by
  induction pw with
  | nil => intro st h; left; simpa using h
  | cons c rest ih =>
    intro st h
    rw [List.foldl_cons] at h
    rcases ih _ h with h1 | ⟨d, hd, hdc⟩
    · rcases reqStep_fth st c h1 with h2 | h2
      · left; exact h2
      · right; exact ⟨c, by simp, h2⟩
    · right; exact ⟨d, by simp [hd], hdc⟩

theorem meets_classes {pw : List Nat} {o : Generator.PasswordOptions}
    (h : Generator.meetsRequirements pw o = true) :
    (o.IncludeLowercase = true →
      ∃ c ∈ pw, Generator.containsRune Generator.lowercase c = true) ∧
    (o.IncludeUppercase = true →
      ∃ c ∈ pw, Generator.containsRune Generator.uppercase c = true) ∧
    (o.IncludeNumbers = true →
      ∃ c ∈ pw, Generator.containsRune Generator.numbers c = true) ∧
    (o.IncludeSymbols = true →
      ∃ c ∈ pw, Generator.containsRune Generator.symbols c = true) := by
  unfold Generator.meetsRequirements at h
  simp only [Bool.and_eq_true] at h
  obtain ⟨⟨⟨h1, h2⟩, h3⟩, h4⟩ := h
  refine ⟨fun ho => ?_, fun ho => ?_, fun ho => ?_, fun ho => ?_⟩
  · rcases foldl_reqStep_fst pw _ h1 with hinit | hex
    · rw [ho] at hinit; simp at hinit
    · exact hex
  · rcases foldl_reqStep_snd pw _ h2 with hinit | hex
    · rw [ho] at hinit; simp at hinit
    · exact hex
  · rcases foldl_reqStep_thd pw _ h3 with hinit | hex
    · rw [ho] at hinit; simp at hinit
    · exact hex
  · rcases foldl_reqStep_fth pw _ h4 with hinit | hex
    · rw [ho] at hinit; simp at hinit
    · exact hex

theorem genFuel_ok (fuel : Nat) :
    ∀ (o : Generator.PasswordOptions) (stream : Nat → Nat) (pos : Nat)
      (pw : List Nat),
    Generator.GeneratePasswordFuel fuel o stream pos = some (.ok pw) →
    Generator.meetsRequirements pw o = true ∧
    ∃ k, pw = Generator.drawPassword (Generator.buildCharset o) o.Length.toNat
        stream (pos + k * o.Length.toNat) := by
  induction fuel with
  | zero =>
    intro o stream pos pw h
    simp [Generator.GeneratePasswordFuel] at h
  | succ n ih =>
    intro o stream pos pw h
    unfold Generator.GeneratePasswordFuel at h
    split at h
    · simp at h
    · split at h
      · simp at h
      · split at h
        · simp only [Option.some.injEq, Except.ok.injEq] at h
          subst h
          refine ⟨by assumption, 0, by simp⟩
        · obtain ⟨hm, k, hk⟩ := ih o stream (pos + o.Length.toNat) pw h
          refine ⟨hm, k + 1, ?_⟩
          rw [hk]
          have harith : pos + o.Length.toNat + k * o.Length.toNat =
              pos + (k + 1) * o.Length.toNat := by ring
          rw [harith]

/-- C9 amended: on every random stream and retry budget, whenever
GeneratePassword halts with a password it has exactly Length characters and
contains at least one character of every requested class, and the result is a
full fresh draw of some retry round (regeneration, never truncation); plain
termination for every stream is not provable, the counterexample theorem
shows an adversarial stream on which the source recursion never returns. -/
theorem C9_generator_output (fuel : Nat) (o : Generator.PasswordOptions)
    (stream : Nat → Nat) (pos : Nat) (pw : List Nat)
    (h : Generator.GeneratePasswordFuel fuel o stream pos = some (.ok pw)) :
    pw.length = o.Length.toNat ∧
    (o.IncludeLowercase = true →
      ∃ c ∈ pw, Generator.containsRune Generator.lowercase c = true) ∧
    (o.IncludeUppercase = true →
      ∃ c ∈ pw, Generator.containsRune Generator.uppercase c = true) ∧
    (o.IncludeNumbers = true →
      ∃ c ∈ pw, Generator.containsRune Generator.numbers c = true) ∧
    (o.IncludeSymbols = true →
      ∃ c ∈ pw, Generator.containsRune Generator.symbols c = true) ∧
    ∃ k, pw = Generator.drawPassword (Generator.buildCharset o) o.Length.toNat
        stream (pos + k * o.Length.toNat) := by
  obtain ⟨hm, k, hk⟩ := genFuel_ok fuel o stream pos pw h
  obtain ⟨c1, c2, c3, c4⟩ := meets_classes hm
  refine ⟨?_, c1, c2, c3, c4, k, hk⟩
  rw [hk]
  simp [Generator.drawPassword]

/-- C9 witness: a concrete run asking only for lowercase halts on the first
round with a four-character all-lowercase draw. -/
theorem C9_witness :
    (Generator.GeneratePasswordFuel 1 Fixtures.lowerOnlyOpts
      Fixtures.constZeroStream 0 = some (.ok [97, 97, 97, 97])) ∧
    ([97, 97, 97, 97].length = Fixtures.lowerOnlyOpts.Length.toNat ∧
     (Fixtures.lowerOnlyOpts.IncludeLowercase = true →
       ∃ c ∈ [97, 97, 97, 97],
         Generator.containsRune Generator.lowercase c = true) ∧
     (Fixtures.lowerOnlyOpts.IncludeUppercase = true →
       ∃ c ∈ [97, 97, 97, 97],
         Generator.containsRune Generator.uppercase c = true) ∧
     (Fixtures.lowerOnlyOpts.IncludeNumbers = true →
       ∃ c ∈ [97, 97, 97, 97],
         Generator.containsRune Generator.numbers c = true) ∧
     (Fixtures.lowerOnlyOpts.IncludeSymbols = true →
       ∃ c ∈ [97, 97, 97, 97],
         Generator.containsRune Generator.symbols c = true) ∧
     ∃ k, [97, 97, 97, 97] =
       Generator.drawPassword (Generator.buildCharset Fixtures.lowerOnlyOpts)
         Fixtures.lowerOnlyOpts.Length.toNat Fixtures.constZeroStream
         (0 + k * Fixtures.lowerOnlyOpts.Length.toNat)) :=
  ⟨rfl,
   C9_generator_output 1 Fixtures.lowerOnlyOpts Fixtures.constZeroStream 0
     [97, 97, 97, 97] rfl⟩

set_option maxRecDepth 8000 in
/-- C9 counterexample: the claim asserts termination for every options value
with positive Length and a requested class, but on the random stream that
always draws the first character of the set, options asking for lowercase and
uppercase make the source recursion regenerate forever: no retry budget
returns. -/
theorem C9_divergence :
    Generator.genDivergesOn Fixtures.lowerUpperOpts Fixtures.constZeroStream := by
  intro fuel
  induction fuel with
  | zero => intro pos; rfl
  | succ n ih =>
    intro pos
    have hstep : Generator.GeneratePasswordFuel (n + 1) Fixtures.lowerUpperOpts
        Fixtures.constZeroStream pos =
        Generator.GeneratePasswordFuel n Fixtures.lowerUpperOpts
          Fixtures.constZeroStream (pos + 1) := rfl
    rw [hstep]
    exact ih (pos + 1)

/-- C10: with a salt persisted but no test-vector configuration entry,
GetTestVector reports a nil vector without error, VerifyKey rejects every key
against the nil vector (the derived key failing with the blob-too-short
decryption error), and UnlockVault with any password fails with the
invalid-master-password (InvalidCredential) error leaving the locked session
and the store untouched. -/
theorem C10_salt_without_vector (pm : Manager.PasswordManager)
    (db : Storage.DBState) (pw s k : List Nat)
    (hinit : pm.initialized = false) (hs : db.salt = some s)
    (htv : db.testVector = none) :
    Storage.GetTestVector db = .ok none ∧
    Crypto.VerifyKey k [] = false ∧
    Crypto.Decrypt [] (Crypto.deriveKeyBytes pw s) = .error .ciphertextTooShort ∧
    Manager.UnlockVault pm db pw = (.error .invalidMasterPassword, pm, db) := by
  have hall : ∀ key : List Nat, Crypto.VerifyKey key [] = false := by
    intro key
    cases hq : Crypto.aesKeySizeOk key <;>
      simp [Crypto.VerifyKey, Crypto.Decrypt, hq, Crypto.nonceSize, Except.isOk,
        Except.toBool]
  refine ⟨by simp [Storage.GetTestVector, htv], hall k, ?_, ?_⟩
  · have hok := aesKeySizeOk_of_len32 (deriveKeyBytes_length pw s)
    simp [Crypto.Decrypt, hok, Crypto.nonceSize]
  · simp [Manager.UnlockVault, Storage.GetSalt, hs, deriveKey_eq_ok,
      Storage.GetTestVector, htv, hall]

/-- C10 witness: the three facts evaluated on a concrete locked session whose
store has a salt and no test vector. -/
theorem C10_witness :
    (Fixtures.lockedPM.initialized = false) ∧
    ((⟨some Fixtures.salt16, none, [], 1⟩ : Storage.DBState).salt =
      some Fixtures.salt16) ∧
    ((⟨some Fixtures.salt16, none, [], 1⟩ : Storage.DBState).testVector = none) ∧
    (Storage.GetTestVector ⟨some Fixtures.salt16, none, [], 1⟩ = .ok none ∧
     Crypto.VerifyKey Fixtures.key32 [] = false ∧
     Crypto.Decrypt []
       (Crypto.deriveKeyBytes Fixtures.correctPw Fixtures.salt16) =
       .error .ciphertextTooShort ∧
     Manager.UnlockVault Fixtures.lockedPM ⟨some Fixtures.salt16, none, [], 1⟩
       Fixtures.correctPw =
       (.error .invalidMasterPassword, Fixtures.lockedPM,
        ⟨some Fixtures.salt16, none, [], 1⟩)) :=
  ⟨rfl, rfl, rfl,
   C10_salt_without_vector Fixtures.lockedPM ⟨some Fixtures.salt16, none, [], 1⟩
     Fixtures.correctPw Fixtures.salt16 Fixtures.key32 rfl rfl rfl⟩

set_option maxRecDepth 100000 in
/-- C5: evaluated at a concrete one-record unlocked vault, the export-import
round trip does not preserve the inner ciphertext blobs byte for byte: the
unmarshalled generic maps carry the blobs as base64 strings, so the imported
row stores the TEXT of the base64 encoding instead of the original BLOB, and
decrypting the imported record under the same master key fails, contradicting
the claimed byte-identity and decryptability. -/
theorem C5_import_reencodes_blobs :
    Manager.ExportVault Fixtures.openPM Fixtures.db5 Fixtures.nonce12 =
      (.ok Fixtures.file5, Fixtures.openPM, Fixtures.db5) ∧
    Manager.ImportVault Fixtures.openPM Fixtures.db5 Fixtures.file5
      (fun _ => false) = (.ok (), Fixtures.openPM, Fixtures.db5After) ∧
    Fixtures.db5After.rows = [Fixtures.row0, Fixtures.row5Imported] ∧
    Fixtures.row5Imported.password =
      .text (Storage.base64Encode Fixtures.pb0) ∧
    Storage.scanBytes Fixtures.row5Imported.password ≠ some Fixtures.pb0 ∧
    (Manager.GetPassword Fixtures.openPM Fixtures.db5After 2).1 =
      .error (.crypto .authFailed) :=
  ⟨rfl, rfl, by decide, rfl, by decide, rfl⟩

end PassManager
